import Mathlib

/-!
Shallow embedding of the request dispatch and tool-mediated execution engine
of `src/vibe-api.py` (class `APIServer` and class `RequestHandler`), together
with theorems settling the frozen claims about it.

Strings are handled as `List Char`; Python string primitives (`lower`,
`strip`, `startswith`, `in`, `split`, `replace`, `count`, `isdigit`) are
modelled for the ASCII range, which is the only range the program compares
against (SQL keywords, content types, JSON punctuation).  Literal brace
characters are written with `\x7b` / `\x7d` escapes throughout.
-/

namespace VibeApi

/-- Python `str.lower`, per character (ASCII model). -/
def lowerChars (cs : List Char) : List Char := cs.map Char.toLower

/-- The characters Python `str.strip()` (and the regex class `\s`) treats as
whitespace: space, tab, newline, carriage return, vertical tab, form feed. -/
def pyIsSpace (c : Char) : Bool :=
  c == ' ' || c == '\t' || c == '\n' || c == '\r' || c == '\x0b' || c == '\x0c'

/-- Python `str.strip()`: drop leading and trailing whitespace. -/
def pyStrip (cs : List Char) : List Char :=
  ((cs.dropWhile pyIsSpace).reverse.dropWhile pyIsSpace).reverse

/-- Python `hay.startswith(needle)`. -/
def startsWithChars : (needle hay : List Char) → Bool
  | [], _ => true
  | _ :: _, [] => false
  | n :: ns, h :: hs => n == h && startsWithChars ns hs

/-- Python `hay.endswith(needle)`. -/
def endsWithChars (needle hay : List Char) : Bool :=
  startsWithChars needle.reverse hay.reverse

/-- Python substring membership `needle in hay`. -/
def containsSubChars : (hay needle : List Char) → Bool
  | [], needle => needle.isEmpty
  | c :: rest, needle => startsWithChars needle (c :: rest) || containsSubChars rest needle

/-- Python `s.split(sep)` for a one-character separator; the result is always
a non-empty list of (possibly empty) groups. -/
def splitOnChar (sep : Char) : List Char → List (List Char)
  | [] => [[]]
  | c :: rest =>
    let r := splitOnChar sep rest
    if c == sep then [] :: r
    else
      match r with
      | [] => [[c]]
      | g :: gs => (c :: g) :: gs

/-- Python `str.isdigit()` (ASCII model): non-empty and all decimal digits.
Note a leading sign makes `isdigit` return `False` in Python. -/
def pyIsDigitStr (cs : List Char) : Bool :=
  !cs.isEmpty && cs.all Char.isDigit

/-- Decimal value of a digit string, as Python `int(...)` computes it. -/
def decDigitsVal (cs : List Char) : Nat :=
  cs.foldl (fun a c => a * 10 + (c.toNat - 48)) 0

/-- Python `s.count(c)` for a single character. -/
def countChar (t : Char) (cs : List Char) : Nat :=
  (cs.filter (fun c => c == t)).length

/-- Python `s.replace(t, "", 1)`: remove the first occurrence of `t`. -/
def removeFirstChar (t : Char) : List Char → List Char
  | [] => []
  | c :: rest => if c == t then rest else c :: removeFirstChar t rest

/-- JSON-like values as the program passes them around.  Python floats are
represented by the literal that produced them (`flt`), which is faithful for
every claim here (no float arithmetic happens in the embedded core). -/
inductive JVal where
  | null : JVal
  | bool (b : Bool) : JVal
  | int (n : Int) : JVal
  | flt (lit : String) : JVal
  | str (s : String) : JVal
  | arr (items : List JVal) : JVal
  | obj (fields : List (String × JVal)) : JVal

/-- Python `dict` assignment `d[k] = v`: replace in place, else append.
Keys stay unique and in insertion order. -/
def dictSet (d : List (String × JVal)) (k : String) (v : JVal) :
    List (String × JVal) :=
  match d with
  | [] => [(k, v)]
  | (k0, v0) :: rest =>
    if k0 = k then (k0, v) :: rest else (k0, v0) :: dictSet rest k v

/-- Python `d.update(new)`: assign every pair of `new` into `d`, in order. -/
def dictUpdate (d new : List (String × JVal)) : List (String × JVal) :=
  new.foldl (fun acc kv => dictSet acc kv.1 kv.2) d

/-- Python `d.get(k)` / `d[k]` on a dict with unique keys. -/
def dictGet (d : List (String × JVal)) (k : String) : Option JVal :=
  match d with
  | [] => none
  | (k0, v0) :: rest => if k0 = k then some v0 else dictGet rest k

/-- Whitespace the Python `json` module skips between tokens. -/
def jsonIsWS (c : Char) : Bool :=
  c == ' ' || c == '\t' || c == '\n' || c == '\r'

/-- Skip JSON whitespace. -/
def skipWS (cs : List Char) : List Char := cs.dropWhile jsonIsWS

/-- Hexadecimal digit value. -/
def hexVal (c : Char) : Option Nat :=
  if c.isDigit then some (c.toNat - 48)
  else if 'a' ≤ c && c ≤ 'f' then some (c.toNat - 87)
  else if 'A' ≤ c && c ≤ 'F' then some (c.toNat - 55)
  else none

/-- The table of two-character JSON string escapes (other than `\u`), as the
`BACKSLASH` dict of Python's `json.decoder`: each escape letter paired with
the character it denotes. -/
def escTable : List (Char × Char) :=
  [('"', '"'), ('\\', '\\'), ('/', '/'), ('b', '\x08'),
   ('f', '\x0c'), ('n', '\n'), ('r', '\r'), ('t', '\t')]

/-- JSON string escape characters (other than `\u`), looked up in the table. -/
def escChar (c : Char) : Option Char :=
  List.lookup c escTable

/-- Parse the body of a JSON string literal after the opening quote, as the
Python `json` module does: strict (raw control characters are rejected),
with the standard escapes; a `\u` escape becomes the code point directly
(surrogate-pair recombination is not modelled).  Returns the decoded
characters and the remainder after the closing quote. -/
def parseJStr : List Char → Option (List Char × List Char)
  | [] => none
  | c :: rest =>
    if c == '"' then some ([], rest)
    else if c == '\\' then
      match rest with
      | [] => none
      | e :: rest2 =>
        if e == 'u' then
          match rest2 with
          | h1 :: h2 :: h3 :: h4 :: rest3 =>
            match hexVal h1, hexVal h2, hexVal h3, hexVal h4 with
            | some a, some b, some x, some y =>
              (parseJStr rest3).map
                (fun p => (Char.ofNat (((a * 16 + b) * 16 + x) * 16 + y) :: p.1, p.2))
            | _, _, _, _ => none
          | _ => none
        else
          match escChar e with
          | some ec => (parseJStr rest2).map (fun p => (ec :: p.1, p.2))
          | none => none
    else if c.toNat < 32 then none
    else (parseJStr rest).map (fun p => (c :: p.1, p.2))

/-- Parse a JSON number at the head of the input, with the grammar the Python
`json` module uses: `-?(0|[1-9][0-9]*)(\.[0-9]+)?([eE][+-]?[0-9]+)?`.  A
fraction or exponent part is consumed only when well-formed (the regex
backtracks otherwise).  Integers become `JVal.int`; anything with a fraction
or exponent becomes a float, represented by its literal. -/
def parseJNum (cs : List Char) : Option (JVal × List Char) :=
  let (neg, cs1) := match cs with
    | '-' :: r => (true, r)
    | _ => (false, cs)
  let intDigits := cs1.takeWhile Char.isDigit
  let cs2 := cs1.dropWhile Char.isDigit
  if intDigits.isEmpty then none
  else if intDigits.length > 1 && intDigits.headD 'x' == '0' then none
  else
    let (fracPart, cs3) := match cs2 with
      | '.' :: r =>
        let fd := r.takeWhile Char.isDigit
        if fd.isEmpty then (([] : List Char), cs2)
        else ('.' :: fd, r.dropWhile Char.isDigit)
      | _ => ([], cs2)
    let (expPart, cs4) := match cs3 with
      | e :: r =>
        if e == 'e' || e == 'E' then
          let (sgn, r2) := match r with
            | '+' :: r2 => (['+'], r2)
            | '-' :: r2 => (['-'], r2)
            | _ => (([] : List Char), r)
          let ed := r2.takeWhile Char.isDigit
          if ed.isEmpty then (([] : List Char), cs3)
          else (e :: (sgn ++ ed), r2.dropWhile Char.isDigit)
        else ([], cs3)
      | [] => ([], cs3)
    let lit := (if neg then ['-'] else []) ++ intDigits ++ fracPart ++ expPart
    if fracPart.isEmpty && expPart.isEmpty then
      some (.int (if neg then -(decDigitsVal intDigits : Int) else (decDigitsVal intDigits : Int)), cs2)
    else
      some (.flt (String.mk lit), cs4)

mutual

/-- Parse one JSON value at the head of the input (leading whitespace already
skipped), as the Python `json` module accepts it — including its non-standard
`NaN` / `Infinity` / `-Infinity` literals.  `fuel` bounds recursion; every
recursive call consumes at least one character first, so `length + 1` fuel
is always enough. -/
def parseJVal (fuel : Nat) (cs : List Char) : Option (JVal × List Char) :=
  match fuel with
  | 0 => none
  | f + 1 =>
    match cs with
    | [] => none
    | c :: rest =>
      if c == '\x7b' then
        match skipWS rest with
        | '\x7d' :: r2 => some (.obj [], r2)
        | r2 => (parseJMembers f [] r2).map (fun p => (.obj p.1, p.2))
      else if c == '[' then
        match skipWS rest with
        | ']' :: r2 => some (.arr [], r2)
        | r2 => (parseJItems f [] r2).map (fun p => (.arr p.1, p.2))
      else if c == '"' then
        (parseJStr rest).map (fun p => (.str (String.mk p.1), p.2))
      else if startsWithChars [ 't', 'r', 'u', 'e' ] cs then
        some (.bool true, cs.drop 4)
      else if startsWithChars [ 'f', 'a', 'l', 's', 'e' ] cs then
        some (.bool false, cs.drop 5)
      else if startsWithChars [ 'n', 'u', 'l', 'l' ] cs then
        some (.null, cs.drop 4)
      else if startsWithChars [ 'N', 'a', 'N' ] cs then
        some (.flt "NaN", cs.drop 3)
      else if startsWithChars [ 'I', 'n', 'f', 'i', 'n', 'i', 't', 'y' ] cs then
        some (.flt "Infinity", cs.drop 8)
      else if startsWithChars [ '-', 'I', 'n', 'f', 'i', 'n', 'i', 't', 'y' ] cs then
        some (.flt "-Infinity", cs.drop 9)
      else parseJNum cs

/-- Parse the members of a JSON object after the opening brace (positioned at
a key, whitespace skipped).  Duplicate keys keep the last value, as Python's
`dict`-building does. -/
def parseJMembers (fuel : Nat) (acc : List (String × JVal)) (cs : List Char) :
    Option (List (String × JVal) × List Char) :=
  match fuel with
  | 0 => none
  | f + 1 =>
    match cs with
    | '"' :: rest =>
      match parseJStr rest with
      | none => none
      | some (key, r1) =>
        match skipWS r1 with
        | ':' :: r3 =>
          match parseJVal f (skipWS r3) with
          | none => none
          | some (v, r4) =>
            let acc2 := dictSet acc (String.mk key) v
            match skipWS r4 with
            | ',' :: r6 => parseJMembers f acc2 (skipWS r6)
            | '\x7d' :: r6 => some (acc2, r6)
            | _ => none
        | _ => none
    | _ => none

/-- Parse the items of a JSON array after the opening bracket (positioned at
a value, whitespace skipped). -/
def parseJItems (fuel : Nat) (acc : List JVal) (cs : List Char) :
    Option (List JVal × List Char) :=
  match fuel with
  | 0 => none
  | f + 1 =>
    match parseJVal f cs with
    | none => none
    | some (v, r1) =>
      let acc2 := acc ++ [v]
      match skipWS r1 with
      | ',' :: r3 => parseJItems f acc2 (skipWS r3)
      | ']' :: r3 => some (acc2, r3)
      | _ => none

end

/-- Python `json.loads` on a whole document: leading/trailing whitespace is
allowed, anything else left over is an error (`None` result). -/
def jsonLoads (s : String) : Option JVal :=
  match parseJVal (s.data.length + 1) (skipWS s.data) with
  | some (v, rest) => if (skipWS rest).isEmpty then some v else none
  | none => none

/-- Python `str.lower` on a `String`. -/
def lowerStr (s : String) : String := String.mk (lowerChars s.data)

/-- The `'+' → space` replacement `urllib.parse.parse_qsl` applies before
percent-decoding. -/
def plusToSpace (cs : List Char) : List Char :=
  cs.map (fun c => if c == '+' then ' ' else c)

/-- Percent-decoding as `urllib.parse.unquote` does it for single-byte (ASCII)
escapes; an ill-formed escape is left verbatim.  Multi-byte UTF-8 escape
sequences are decoded byte-by-byte (the program never inspects decoded bytes,
so this is faithful for every claim here). -/
def percentDecode : List Char → List Char
  | [] => []
  | '%' :: a :: b :: rest =>
    (match hexVal a, hexVal b with
     | some x, some y => Char.ofNat (x * 16 + y) :: percentDecode rest
     | _, _ => '%' :: percentDecode (a :: b :: rest))
  | c :: rest => c :: percentDecode rest

/-- The decoding `parse_qsl` applies to each name and value. -/
def pyUnquote (cs : List Char) : List Char := percentDecode (plusToSpace cs)

/-- Split at the first occurrence of `t`, Python `s.split(t, 1)` when `t`
occurs; `none` when it does not. -/
def splitFirstAt (t : Char) : List Char → Option (List Char × List Char)
  | [] => none
  | c :: rest =>
    if c == t then some ([], rest)
    else (splitFirstAt t rest).map (fun p => (c :: p.1, p.2))

/-- Model of `urllib.parse.parse_qsl` with default arguments (as `parse_qs`
calls it): split on `&`; a group without `=` or with an empty value is
dropped (`keep_blank_values=False`); names and values are `+`/percent
decoded. -/
def parseQsl (qs : List Char) : List (String × String) :=
  (splitOnChar '&' qs).filterMap (fun pair =>
    match splitFirstAt '=' pair with
    | none => none
    | some (n, v) =>
      if v.isEmpty then none
      else some (String.mk (pyUnquote n), String.mk (pyUnquote v)))

/-- Append a value to a key's list in a multi-valued dict, preserving
first-occurrence key order (Python dict insertion semantics). -/
def multiAdd (d : List (String × List String)) (k v : String) :
    List (String × List String) :=
  match d with
  | [] => [(k, [v])]
  | (k0, vs) :: rest =>
    if k0 = k then (k0, vs ++ [v]) :: rest else (k0, vs) :: multiAdd rest k v

/-- The key → values dict `parse_qs` returns. -/
def parseQs (qs : List Char) : List (String × List String) :=
  (parseQsl qs).foldl (fun acc kv => multiAdd acc kv.1 kv.2) []

/-- The scalar coercion `RequestHandler.process_request` applies to a query
parameter with exactly one value (source lines 888–899): `int` if
`value.isdigit()`, else `float` if removing the first `.` leaves digits and
the value contains exactly one `.`, else the string itself.  The float is
represented by its literal. -/
def coerceScalar (v : String) : JVal :=
  if pyIsDigitStr v.data then .int (decDigitsVal v.data)
  else if pyIsDigitStr (removeFirstChar '.' v.data) && countChar '.' v.data == 1 then
    .flt v
  else .str v

/-- The `parsed_params` dict built from the query string (source lines
884–904): single-valued keys are coerced, multi-valued keys keep their
values as a list of uncoerced strings. -/
def parseQueryParams (qs : String) : List (String × JVal) :=
  (parseQs qs.data).map (fun kv =>
    match kv.2 with
    | [v] => (kv.1, coerceScalar v)
    | vs => (kv.1, .arr (vs.map JVal.str)))

/-- Python `s.strip("/")`. -/
def stripSlashes (cs : List Char) : List Char :=
  ((cs.dropWhile (fun c => c == '/')).reverse.dropWhile (fun c => c == '/')).reverse

/-- Whether a pattern segment is a `\x7bname\x7d` placeholder
(`part.startswith("{") and part.endswith("}")` in the source). -/
def isParamPart (part : List Char) : Bool :=
  startsWithChars [ '\x7b' ] part && endsWithChars [ '\x7d' ] part

/-- The placeholder's name, `part[1:-1]`. -/
def paramName (part : List Char) : String := String.mk ((part.drop 1).dropLast)

/-- Segment-wise matching of the compiled pattern against the request path
segments.  `_path_matches` compiles each placeholder to `([^/]+)` and each
literal segment to its escaped self, joins them with `/`, anchors with
`^/...$`, and applies `re.match`; since neither a literal segment nor
`[^/]+` can contain `/`, that regex match is exactly this segment-wise
comparison: equal segment counts, literal segments verbatim-equal,
placeholder segments non-empty and captured verbatim. -/
def matchParts : List (List Char) → List (List Char) → Option (List (String × String))
  | [], [] => some []
  | [], _ :: _ => none
  | _ :: _, [] => none
  | part :: ps, seg :: ss =>
    if isParamPart part then
      if seg.isEmpty then none
      else (matchParts ps ss).map (fun rest => (paramName part, String.mk seg) :: rest)
    else if seg = part then matchParts ps ss
    else none

/-- The pattern segments of an endpoint path: `api_path.strip("/").split("/")`. -/
def patternParts (apiPath : String) : List (List Char) :=
  splitOnChar '/' (stripSlashes apiPath.data)

/-- `RequestHandler._path_matches` (source lines 996–1026): `some params` in
place of `(True, params)`, `none` in place of `(False, {})`.  The parameter
map is returned as the `zip(param_names, match.groups())` pair list; the
source turns it into a dict, which agrees with consuming this list through
`dict.update`. -/
def pathMatches (apiPath requestPath : String) : Option (List (String × String)) :=
  match requestPath.data with
  | [] => none
  | c :: rest =>
    if c = '/' then matchParts (patternParts apiPath) (splitOnChar '/' rest)
    else none

/-- One endpoint definition as loaded from the configuration file. -/
structure Api where
  name : String
  method : String
  path : String
  description : String
  implementation : String

/-- The route scan in `process_request` (source lines 850–860): first
endpoint in registry order whose method equals the request method and whose
pattern matches the path. -/
def findRoute (apis : List Api) (method path : String) :
    Option (Api × List (String × String)) :=
  match apis with
  | [] => none
  | a :: rest =>
    if a.method = method then
      match pathMatches a.path path with
      | some ps => some (a, ps)
      | none => findRoute rest method path
    else findRoute rest method path

/-- What `cursor.execute` and the subsequent fetch produce for one call:
rows with column metadata, a bare row/affected count, or an exception. -/
inductive ExecOutcome where
  | rows (cols : List String) (data : List (List JVal)) : ExecOutcome
  | count (n : Int) : ExecOutcome
  | execFail (detail : String) : ExecOutcome

/-- The environment one `execute_db_query` call runs in: configuration
presence and type, the credentials resolved from the environment variables,
whether the connection attempt succeeds, what the interactive prompt would
answer if consulted, and what executing the statement would produce. -/
structure DBEnv where
  hasConfig : Bool
  dbType : String
  user : String
  password : String
  connectOk : Bool
  promptAnswer : String
  execResult : ExecOutcome

/-- The dict `execute_db_query` returns, one constructor per distinct shape
(source lines 391, 411, 417, 454, 460–467, 479, 483, 490). -/
inductive QueryReply where
  | noDatabase : QueryReply
  | unsupported (t : String) : QueryReply
  | missingPassword : QueryReply
  | missingUser : QueryReply
  | connectFailed : QueryReply
  | notAuthorized : QueryReply
  | success (data : Option (List (List (String × JVal)))) (rowCount : Int) : QueryReply
  | execFailed (detail : String) : QueryReply

/-- The observable effects of one `execute_db_query` call: the returned
dict, the permission flag afterwards, whether the interactive prompt was
shown, whether `cursor.execute` ran, and whether a commit happened. -/
structure GatewayTrace where
  result : QueryReply
  permAfter : Bool
  prompted : Bool
  executed : Bool
  committed : Bool

/-- The keyword list of the modification check (source lines 431–439). -/
def modificationKeywords : List String :=
  ["insert", "update", "delete", "drop", "create", "alter"]

/-- The classification in `execute_db_query` (source lines 427–440):
`is_modification` is `False` unless `read_only` is false, in which case the
lowered, stripped statement is tested with `startswith` against each
keyword. -/
def is_modification (query : String) (read_only : Bool) : Bool :=
  !read_only &&
    modificationKeywords.any
      (fun op => startsWithChars op.data (pyStrip (lowerChars query.data)))

/-- The rows result: `[dict(zip(column_names, row)) for row in rows]`. -/
def rowDicts (cols : List String) (data : List (List JVal)) :
    List (List (String × JVal)) :=
  data.map (fun row => (cols.zip row).foldl (fun acc kv => dictSet acc kv.1 kv.2) [])

/-- The execution tail of `execute_db_query` (source lines 457–476): run the
statement, build the result, commit when the statement was classified
modifying, and report any execution fault as a `Query execution failed`
dict. -/
def runExec (env : DBEnv) (isMod permAfter prompted : Bool) : GatewayTrace :=
  match env.execResult with
  | .rows cols data =>
    { result := .success (some (rowDicts cols data)) (Int.ofNat data.length),
      permAfter := permAfter, prompted := prompted, executed := true, committed := isMod }
  | .count n =>
    { result := .success none n,
      permAfter := permAfter, prompted := prompted, executed := true, committed := isMod }
  | .execFail d =>
    { result := .execFailed d,
      permAfter := permAfter, prompted := prompted, executed := true, committed := false }

/-- `APIServer.execute_db_query` (source lines 388–492) as a function of its
environment, the session permission flag, and its three arguments.  The
checks happen in source order: configuration, database type, password, user,
connection, then classification, the permission gate, and execution. -/
def execute_db_query (env : DBEnv) (perm : Bool) (query : String)
    (params : List JVal) (read_only : Bool) : GatewayTrace :=
  if !env.hasConfig then
    { result := .noDatabase, permAfter := perm, prompted := false,
      executed := false, committed := false }
  else if env.dbType ≠ "postgresql" then
    { result := .unsupported env.dbType, permAfter := perm, prompted := false,
      executed := false, committed := false }
  else if env.password = "" then
    { result := .missingPassword, permAfter := perm, prompted := false,
      executed := false, committed := false }
  else if env.user = "" then
    { result := .missingUser, permAfter := perm, prompted := false,
      executed := false, committed := false }
  else if !env.connectOk then
    { result := .connectFailed, permAfter := perm, prompted := false,
      executed := false, committed := false }
  else
    let isMod := is_modification query read_only
    if isMod && !perm then
      if lowerStr env.promptAnswer = "all" then
        runExec env isMod true true
      else if lowerStr env.promptAnswer = "y" then
        runExec env isMod perm true
      else
        { result := .notAuthorized, permAfter := perm, prompted := true,
          executed := false, committed := false }
    else
      runExec env isMod perm false

/-- A backquote character (code point 96). -/
def backquote : Char := Char.ofNat 96

/-- Three backquotes, the code fence delimiter of the extraction regex. -/
def fenceChars : List Char := [backquote, backquote, backquote]

/-- Trailing-whitespace stripping (the second `\s*` of the regex). -/
def dropTrailingWS (cs : List Char) : List Char :=
  (cs.reverse.dropWhile pyIsSpace).reverse

/-- Index of the first occurrence of a code fence. -/
def firstFenceIdx : List Char → Option Nat
  | [] => none
  | c :: rest =>
    if startsWithChars fenceChars (c :: rest) then some 0
    else (firstFenceIdx rest).map (fun n => n + 1)

/-- Group 1 of the extraction regex for one candidate start, given the text
right after the opening fence.  The regex is
`(3 backquotes)(?:json)?\s*(.*?)\s*(3 backquotes)` with `re.DOTALL`.  Taking
the optional `json` greedily is safe because `json` contains no backquote,
so a closing fence exists after it iff one exists without it; the first
`\s*` greedily takes the maximal whitespace run (safe: a backquote is not
whitespace); the lazy group then stops at the earliest point from which only
whitespace separates it from a fence — the text up to the first subsequent
fence, with trailing whitespace stripped. -/
def fenceGroup (t : List Char) : Option (List Char) :=
  let t1 := if startsWithChars [ 'j', 's', 'o', 'n' ] t then t.drop 4 else t
  let body := t1.dropWhile pyIsSpace
  match firstFenceIdx body with
  | none => none
  | some p => some (dropTrailingWS (body.take p))

/-- `re.search` of the extraction regex: try every start position from the
left; a start position can only succeed where an opening fence sits and a
closing fence follows. -/
def searchFenced : List Char → Option (List Char)
  | [] => none
  | c :: rest =>
    if startsWithChars fenceChars (c :: rest) then
      match fenceGroup ((c :: rest).drop 3) with
      | some g => some g
      | none => searchFenced rest
    else searchFenced rest

/-- The dict `_process_with_llm` returns when the turn budget is exhausted
(source lines 1161–1164). -/
def processingLimitReachedObj : JVal :=
  .obj [("status", .str "error"),
        ("error", .str "Processing limit reached without generating a final response")]

/-- The final-response handling of `_process_with_llm` (source lines
1116–1134): parse the content as JSON; failing that, extract the first
fenced code block (optionally tagged `json`) and parse its interior;
failing that too, wrap the raw text. -/
def finalizeContent (content : String) : JVal :=
  match jsonLoads content with
  | some v => v
  | none =>
    match searchFenced content.data with
    | some inner =>
      match jsonLoads (String.mk inner) with
      | some v => v
      | none => .obj [("status", .str "success"), ("result", .str content)]
    | none => .obj [("status", .str "success"), ("result", .str content)]

/-- Outcome of the body-parsing section of `process_request` (source lines
907–950).  `fault` stands for an exception that the section does not catch
(it propagates to the outermost handler, which answers 500). -/
inductive BodyOutcome where
  | ok (fields : List (String × JVal)) : BodyOutcome
  | invalidJSON : BodyOutcome
  | invalidFormat : BodyOutcome
  | fault : BodyOutcome

/-- The form-encoded branch (source lines 917–923): split on `&`, then on
the first `=` of each pair; pairs without `=` are skipped; values stay
strings, with no percent-decoding. -/
def parseFormBody (body : String) : List (String × JVal) :=
  (splitOnChar '&' body.data).foldl (fun acc pair =>
    match splitFirstAt '=' pair with
    | some kv => dictSet acc (String.mk kv.1) (.str (String.mk kv.2))
    | none => acc) []

/-- The body-parsing decision of `process_request` (source lines 907–950).
The JSON branch fires when the lowered content type contains `json` OR the
stripped body starts with a brace — whether or not a content type was
declared.  A body whose JSON parses to a non-object makes `dict.update`
raise: uncaught in the JSON branch (500), caught by the bare `except` of the
last-resort branch (400).  (`dict.update` would actually accept a list of
two-character strings; that corner is not modelled.) -/
def parseBody (contentTypeHeader body : String) : BodyOutcome :=
  let ct := lowerStr contentTypeHeader
  if containsSubChars ct.data [ 'j', 's', 'o', 'n' ] ||
      startsWithChars [ '\x7b' ] (pyStrip body.data) then
    match jsonLoads body with
    | some (.obj fs) => .ok fs
    | some _ => .fault
    | none => .invalidJSON
  else if containsSubChars ct.data ("x-www-form-urlencoded".data) then
    .ok (parseFormBody body)
  else if !(pyStrip body.data).isEmpty then
    match jsonLoads body with
    | some (.obj fs) => .ok fs
    | _ => .invalidFormat
  else .ok []

/-- One tool invocation as the model emits it: the function name and the
argument payload, which arrives as a JSON text that the loop parses. -/
structure ToolCall where
  name : String
  arguments : String

/-- One model response: final content plus a (possibly empty) list of tool
calls.  The loop takes the final-answer branch exactly when `tool_calls` is
absent or empty. -/
structure ModelMsg where
  content : String
  toolCalls : List ToolCall

/-- Whether processing the tool calls of one response completes without an
exception: each call named `database_query` must have arguments that
`json.loads` parses into a dict (source line 1139); a call with any other
name is skipped.  `execute_db_query` itself never raises — its `try` block
turns any exception into an error dict — and its result is only serialized
into the chat history, so the gateway does not otherwise influence the
loop's returned value. -/
def callsOk (calls : List ToolCall) : Bool :=
  calls.all (fun c =>
    if c.name == "database_query" then
      match jsonLoads c.arguments with
      | some (.obj _) => true
      | _ => false
    else true)

/-- What one run of the orchestration loop produces: a final JSON value, the
budget-exhausted dict, or an uncaught exception. -/
inductive LoopOutcome where
  | done (v : JVal) : LoopOutcome
  | limit : LoopOutcome
  | fault : LoopOutcome

/-- The turn loop of `_process_with_llm` (source lines 1077–1164), with the
model abstracted as an oracle giving the response of each turn.  The second
component counts the `chat.completions.create` calls made.  The transcript
(system message, request data, tool results) only influences the model's
responses, which the oracle already ranges over, so it is not carried. -/
def llmLoop (oracle : Nat → ModelMsg) : Nat → Nat → LoopOutcome × Nat
  | 0, _ => (.limit, 0)
  | n + 1, t =>
    let m := oracle t
    if m.toolCalls.isEmpty then (.done (finalizeContent m.content), 1)
    else if callsOk m.toolCalls then
      let r := llmLoop oracle n (t + 1)
      (r.1, r.2 + 1)
    else (.fault, 1)

/-- The turn budget, `max_turns = 10` (source line 1077). -/
def maxTurns : Nat := 10

/-- The value `_process_with_llm` produces (or `fault` for an uncaught
exception), for a given oracle. -/
def processWithLLM (oracle : Nat → ModelMsg) : LoopOutcome :=
  (llmLoop oracle maxTurns 0).1

/-- The number of model round-trips `_process_with_llm` makes. -/
def llmCallCount (oracle : Nat → ModelMsg) : Nat :=
  (llmLoop oracle maxTurns 0).2

/-- An inbound HTTP request as the handler sees it: the method, the raw
request target (`self.path`, possibly carrying a query string), the declared
content type (`""` when the header is absent), and the body text. -/
structure HttpReq where
  method : String
  rawPath : String
  contentType : String
  body : String

/-- `self.path.split("?")[0]`, the path used for route matching. -/
def routePath (rawPath : String) : String :=
  String.mk (rawPath.data.takeWhile (fun c => !(c == '?')))

/-- Python `"?" in self.path`. -/
def hasQueryMark (rawPath : String) : Bool :=
  rawPath.data.any (fun c => c == '?')

/-- `urlparse(self.path).query`: the text after the first `?` of the
pre-fragment part. -/
def queryStringOf (rawPath : String) : String :=
  match splitFirstAt '?' (rawPath.data.takeWhile (fun c => !(c == '#'))) with
  | some p => String.mk p.2
  | none => ""

/-- The Markdown document the reserved `GET /docs` route returns (source
lines 823–848). -/
def docsContent (apis : List Api) : String :=
  "# API Documentation\n\n" ++
  (if apis.isEmpty then "" else
    "## API Endpoints\n\n" ++
    String.join (apis.map (fun api =>
      "- **" ++ api.method ++ "** - " ++ api.path ++ " - " ++ api.description ++ "\n")) ++
    "\n") ++
  (if apis.isEmpty then "" else
    "## API Definitions\n\n" ++
    String.join (apis.map (fun api =>
      "### API: " ++ api.name ++ "\n#### HTTP Method\n" ++ api.method ++
      "\n#### Path\n" ++ api.path ++ "\n#### Description\n" ++ api.description ++ "\n")))

/-- The 404 body (source lines 866–870). -/
def notFoundObj : JVal :=
  .obj [("status", .str "error"), ("error", .str "API endpoint not found")]

/-- The 400 body for a JSON parse failure (source lines 945–949). -/
def invalidJsonObj : JVal :=
  .obj [("status", .str "error"), ("error", .str "Invalid JSON in request body")]

/-- The 400 body for an unrecognized body format (source lines 932–939). -/
def invalidFormatObj : JVal :=
  .obj [("status", .str "error"), ("error", .str "Invalid request format. Expected JSON")]

/-- The 500 body of the outermost exception handler (source lines 983–994);
the exception text and traceback strings are not modelled. -/
def internalErrorObj : JVal :=
  .obj [("status", .str "error"), ("message", .str "Internal server Error"),
        ("error_detail", .str ""), ("traceback", .str "")]

/-- The post-processing of the handler (source lines 961–967): a string
response is re-parsed as JSON, or wrapped on failure; anything else passes
through. -/
def coerceResponse (v : JVal) : JVal :=
  match v with
  | .str s =>
    (match jsonLoads s with
     | some v2 => v2
     | none => .obj [("status", .str "success"), ("result", .str s)])
  | other => other

/-- The `request_data` dict as `process_request` builds it (source lines
874–927): path parameters first, inserted as verbatim strings, then the
coerced query parameters, then the body fields, later sources overwriting
earlier ones on key collision. -/
def mergedInput (pathParams : List (String × String))
    (queryParams bodyFields : List (String × JVal)) : List (String × JVal) :=
  dictUpdate
    (dictUpdate
      (dictUpdate [] (pathParams.map (fun kv => (kv.1, JVal.str kv.2))))
      queryParams)
    bodyFields

/-- `RequestHandler.process_request` (source lines 818–994) as a function of
the registry, the model oracle, and the request, returning the HTTP status
code and the response body.  The `GET /docs` branch answers the Markdown
document (as a string body; its `text/markdown` content type is not
modelled).  The merged request data only enters the model's transcript,
which the oracle abstracts, so it does not influence the pipeline's result
beyond its construction. -/
def processRequest (apis : List Api) (oracle : Nat → ModelMsg) (req : HttpReq) :
    Nat × JVal :=
  let path := routePath req.rawPath
  if req.method == "GET" && path == "/docs" then
    (200, .str (docsContent apis))
  else
    match findRoute apis req.method path with
    | none => (404, notFoundObj)
    | some ap =>
      let qp := if hasQueryMark req.rawPath then
          parseQueryParams (queryStringOf req.rawPath)
        else []
      let bodyRes := if req.method == "POST" || req.method == "PUT" then
          parseBody req.contentType req.body
        else .ok []
      match bodyRes with
      | .invalidJSON => (400, invalidJsonObj)
      | .invalidFormat => (400, invalidFormatObj)
      | .fault => (500, internalErrorObj)
      | .ok fields =>
        let merged := mergedInput ap.2 qp fields
        match merged, processWithLLM oracle with
        | _, .fault => (500, internalErrorObj)
        | _, .limit => (200, coerceResponse processingLimitReachedObj)
        | _, .done v => (200, coerceResponse v)

/-! Concrete fixtures used by witnesses and counterexamples. -/

/-- A gateway environment in which configuration, credentials and connection
are all in order and the interactive prompt would answer `n` (deny). -/
def envDeny : DBEnv :=
  { hasConfig := true, dbType := "postgresql", user := "u", password := "p",
    connectOk := true, promptAnswer := "n", execResult := .count 0 }

/-- Like `envDeny` but the prompt would answer `all`
(approve-and-remember-for-session). -/
def envAll : DBEnv := { envDeny with promptAnswer := "all" }

/-- Like `envDeny` but the prompt would answer `y` (approve once). -/
def envYes : DBEnv := { envDeny with promptAnswer := "y" }

/-- A registry with one endpoint, `GET /items/\x7bid\x7d`. -/
def itemsApi : Api :=
  { name := "items_id", method := "GET", path := "/items/\x7bid\x7d",
    description := "Fetch one item", implementation := "1. query the items table" }

/-- A second endpoint whose pattern also matches `/items/42`. -/
def itemsLiteralApi : Api :=
  { name := "items_42", method := "GET", path := "/items/42",
    description := "The literal item", implementation := "1. answer" }

/-- An oracle that answers every turn with a well-formed `database_query`
tool call. -/
def oracleAllTools : Nat → ModelMsg :=
  fun _ => { content := "", toolCalls := [{ name := "database_query", arguments := "\x7b\x7d" }] }

/-- An oracle whose very first response carries a `database_query` tool call
with arguments that are not valid JSON. -/
def oracleBadArgs : Nat → ModelMsg :=
  fun _ => { content := "", toolCalls := [{ name := "database_query", arguments := "not json" }] }

/-- An oracle that immediately answers with a final JSON object. -/
def oracleFinal : Nat → ModelMsg :=
  fun _ => { content := "\x7b\"status\": \"success\"\x7d", toolCalls := [] }

/-! Shared helper lemmas. -/

/-- The execution tail leaves the `prompted` flag it was given. -/
theorem runExec_prompted (env : DBEnv) (m pa pr : Bool) :
    (runExec env m pa pr).prompted = pr := by
  cases h : env.execResult <;> simp [runExec, h]

/-- The execution tail always runs the statement. -/
theorem runExec_executed (env : DBEnv) (m pa pr : Bool) :
    (runExec env m pa pr).executed = true := by
  cases h : env.execResult <;> simp [runExec, h]

/-- The execution tail leaves the permission flag it was given. -/
theorem runExec_permAfter (env : DBEnv) (m pa pr : Bool) :
    (runExec env m pa pr).permAfter = pa := by
  cases h : env.execResult <;> simp [runExec, h]

/-- Configuration, type, credential and connection checks all pass. -/
def dbReady (env : DBEnv) : Prop :=
  env.hasConfig = true ∧ env.dbType = "postgresql" ∧ ¬ env.password = "" ∧
    ¬ env.user = "" ∧ env.connectOk = true

/-- With the preliminary checks out of the way, `execute_db_query` is the
classification, the permission gate and the execution tail. -/
theorem execute_db_query_ready (env : DBEnv) (perm : Bool) (q : String)
    (ps : List JVal) (ro : Bool) (h : dbReady env) :
    execute_db_query env perm q ps ro =
      (if is_modification q ro && !perm then
        (if lowerStr env.promptAnswer = "all" then
          runExec env (is_modification q ro) true true
        else if lowerStr env.promptAnswer = "y" then
          runExec env (is_modification q ro) perm true
        else
          { result := .notAuthorized, permAfter := perm, prompted := true,
            executed := false, committed := false })
      else runExec env (is_modification q ro) perm false) := by
  obtain ⟨h1, h2, h3, h4, h5⟩ := h
  simp [execute_db_query, h1, h2, h3, h4, h5]

/-- A statement declared read-only is never classified modifying. -/
theorem is_modification_read_only (q : String) :
    is_modification q true = false := by
  simp [is_modification]

/-- A prefix determines the head of the string it prefixes. -/
theorem startsWithChars_cons (c : Char) (cs s : List Char)
    (h : startsWithChars (c :: cs) s = true) : ∃ t, s = c :: t := by
  cases s with
  | nil => simp [startsWithChars] at h
  | cons d t =>
    simp only [startsWithChars, Bool.and_eq_true, beq_iff_eq] at h
    exact ⟨t, by rw [h.1]⟩

/-! Claim C1. -/

/-- C1 counterexample.  The claim says a destructive-keyword statement
submitted with `declaredReadOnly = true` faces the permission gate no less
than one submitted with `declaredReadOnly = false`.  In the code the flag
suppresses the classification entirely: in an environment whose prompt
would DENY, `drop table users` with `read_only = true` executes with no
prompt at all, while the same statement with `read_only = false` is blocked
by the gate.  The declared flag therefore bypasses the gate. -/
theorem c1_counterexample :
    (execute_db_query envDeny false "drop table users" [] true).executed = true ∧
    (execute_db_query envDeny false "drop table users" [] true).prompted = false ∧
    (execute_db_query envDeny false "drop table users" [] false).executed = false ∧
    (execute_db_query envDeny false "drop table users" [] false).result =
      QueryReply.notAuthorized := ⟨rfl, rfl, rfl, rfl⟩

/-- C1 amended: the `declaredReadOnly` flag drives the permission gate
rather than only escalating caution.  A statement submitted with
`declaredReadOnly = true` is never classified modifying and (when
configuration, credentials and connection are in order) executes without
any prompt; a destructive-keyword statement faces the gate only when
submitted with `declaredReadOnly = false` and the session flag is unset. -/
theorem c1_read_only_flag_gate (env : DBEnv) (perm : Bool) (q : String)
    (ps : List JVal) (h : dbReady env) :
    ((execute_db_query env perm q ps true).prompted = false ∧
     (execute_db_query env perm q ps true).executed = true) ∧
    (is_modification q false = true →
      (execute_db_query env false q ps false).prompted = true) := by
  rw [execute_db_query_ready env perm q ps true h,
    execute_db_query_ready env false q ps false h]
  refine ⟨⟨?_, ?_⟩, ?_⟩
  · simp [is_modification_read_only, runExec_prompted]
  · simp [is_modification_read_only, runExec_executed]
  · intro hmod
    simp only [hmod, Bool.not_false, Bool.and_self]
    by_cases ha : lowerStr env.promptAnswer = "all"
    · simp [ha, runExec_prompted]
    · by_cases hy : lowerStr env.promptAnswer = "y"
      · simp [ha, hy, runExec_prompted]
      · simp [ha, hy]

/-- C1 witness: the amended theorem at `envDeny` and `drop table users`. -/
theorem c1_read_only_flag_gate_witness :
    ((execute_db_query envDeny false "drop table users" [] true).prompted = false ∧
     (execute_db_query envDeny false "drop table users" [] true).executed = true) ∧
    (is_modification "drop table users" false = true →
      (execute_db_query envDeny false "drop table users" [] false).prompted = true) :=
  c1_read_only_flag_gate envDeny false "drop table users" []
    ⟨rfl, rfl, by decide, by decide, rfl⟩

/-! Claim C2. -/

/-- C2: when a statement is classified modifying and the session flag is
false the gateway prompts; a deny answer yields the not-authorized error
with no execution and an unchanged flag; an `all` answer sets the session
flag and executes; and with the session flag already true any modifying
statement executes without a prompt. -/
theorem c2_permission_gate (env env2 : DBEnv) (q q2 : String)
    (ps ps2 : List JVal) (ro ro2 : Bool)
    (h : dbReady env) (hm : is_modification q ro = true)
    (h2 : dbReady env2) (hm2 : is_modification q2 ro2 = true) :
    ((execute_db_query env false q ps ro).prompted = true) ∧
    (¬ lowerStr env.promptAnswer = "all" → ¬ lowerStr env.promptAnswer = "y" →
      (execute_db_query env false q ps ro).result = QueryReply.notAuthorized ∧
      (execute_db_query env false q ps ro).executed = false ∧
      (execute_db_query env false q ps ro).permAfter = false) ∧
    (lowerStr env.promptAnswer = "all" →
      (execute_db_query env false q ps ro).permAfter = true ∧
      (execute_db_query env false q ps ro).executed = true) ∧
    ((execute_db_query env2 true q2 ps2 ro2).prompted = false ∧
     (execute_db_query env2 true q2 ps2 ro2).executed = true) := by
  rw [execute_db_query_ready env false q ps ro h,
    execute_db_query_ready env2 true q2 ps2 ro2 h2]
  refine ⟨?_, ?_, ?_, ?_⟩
  · simp only [hm, Bool.not_false, Bool.and_self]
    by_cases ha : lowerStr env.promptAnswer = "all"
    · simp [ha, runExec_prompted]
    · by_cases hy : lowerStr env.promptAnswer = "y"
      · simp [ha, hy, runExec_prompted]
      · simp [ha, hy]
  · intro ha hy
    simp only [hm, Bool.not_false, Bool.and_self]
    simp [ha, hy]
  · intro ha
    simp only [hm, Bool.not_false, Bool.and_self]
    simp [ha, runExec_permAfter, runExec_executed]
  · simp [hm2, runExec_prompted, runExec_executed]

/-- C2 witness: the gate at `envDeny` / `envAll` with `delete from t`. -/
theorem c2_permission_gate_witness :
    ((execute_db_query envDeny false "delete from t" [] false).prompted = true) ∧
    (¬ lowerStr envDeny.promptAnswer = "all" → ¬ lowerStr envDeny.promptAnswer = "y" →
      (execute_db_query envDeny false "delete from t" [] false).result =
        QueryReply.notAuthorized ∧
      (execute_db_query envDeny false "delete from t" [] false).executed = false ∧
      (execute_db_query envDeny false "delete from t" [] false).permAfter = false) ∧
    (lowerStr envDeny.promptAnswer = "all" →
      (execute_db_query envDeny false "delete from t" [] false).permAfter = true ∧
      (execute_db_query envDeny false "delete from t" [] false).executed = true) ∧
    ((execute_db_query envAll true "delete from t" [] false).prompted = false ∧
     (execute_db_query envAll true "delete from t" [] false).executed = true) :=
  c2_permission_gate envDeny envAll "delete from t" "delete from t" [] [] false false
    ⟨rfl, rfl, by decide, by decide, rfl⟩ (by decide)
    ⟨rfl, rfl, by decide, by decide, rfl⟩ (by decide)

/-! Claim C3. -/

/-- C3: the gateway classifies a statement as modifying exactly when the
declared flag is false and the lowered, stripped statement starts with one
of the six keywords; a statement beginning with `select` is classified
read-only whatever the flag; and (preliminaries passing) the permission
prompt fires on an unauthorized session exactly for statements so
classified. -/
theorem c3_classification (q : String) (ro : Bool) :
    (is_modification q ro = true ↔
      (ro = false ∧ ∃ op ∈ modificationKeywords,
        startsWithChars op.data (pyStrip (lowerChars q.data)) = true)) ∧
    (startsWithChars [ 's', 'e', 'l', 'e', 'c', 't' ] (pyStrip (lowerChars q.data)) = true →
      is_modification q ro = false) ∧
    (∀ env : DBEnv, dbReady env →
      (execute_db_query env false q [] ro).prompted = is_modification q ro) := by
  refine ⟨?_, ?_, ?_⟩
  · simp [is_modification, List.any_eq_true, Bool.not_eq_true']
  · intro hsel
    obtain ⟨t, ht⟩ := startsWithChars_cons 's' _ _ hsel
    simp only [is_modification, modificationKeywords, List.any_cons, List.any_nil, ht]
    simp [startsWithChars,
      show ('i' == 's') = false from rfl, show ('u' == 's') = false from rfl,
      show ('d' == 's') = false from rfl, show ('c' == 's') = false from rfl,
      show ('a' == 's') = false from rfl]
  · intro env henv
    rw [execute_db_query_ready env false q [] ro henv]
    cases hmod : is_modification q ro with
    | true =>
      simp only [hmod, Bool.not_false, Bool.and_self]
      by_cases ha : lowerStr env.promptAnswer = "all"
      · simp [ha, runExec_prompted]
      · by_cases hy : lowerStr env.promptAnswer = "y"
        · simp [ha, hy, runExec_prompted]
        · simp [ha, hy]
    | false =>
      simp [hmod, runExec_prompted]

/-! Claim C4. -/

/-- The loop never makes more model calls than it has fuel. -/
theorem llmLoop_count_le (oracle : Nat → ModelMsg) (n : Nat) :
    ∀ t, (llmLoop oracle n t).2 ≤ n := by
  induction n with
  | zero => intro t; simp [llmLoop]
  | succ n ih =>
    intro t
    simp only [llmLoop]
    by_cases he : (oracle t).toolCalls.isEmpty
    · simp [he]
    · by_cases hok : callsOk (oracle t).toolCalls
      · simp only [he, hok, Bool.false_eq_true, if_false, if_true]
        exact Nat.succ_le_succ (ih (t + 1))
      · simp [he, hok]

/-- When every response in the window keeps invoking tools with well-formed
arguments, the loop burns all its fuel and reports the limit. -/
theorem llmLoop_limit (oracle : Nat → ModelMsg) (n : Nat) :
    ∀ t, (∀ i, t ≤ i → i < t + n →
        (oracle i).toolCalls ≠ [] ∧ callsOk (oracle i).toolCalls = true) →
      llmLoop oracle n t = (.limit, n) := by
  induction n with
  | zero => intro t _; simp [llmLoop]
  | succ n ih =>
    intro t h
    have h0 := h t (Nat.le_refl t) (by omega)
    have he : (oracle t).toolCalls.isEmpty = false := by
      cases hcl : (oracle t).toolCalls with
      | nil => exact absurd hcl h0.1
      | cons a l => rfl
    simp only [llmLoop, he, Bool.false_eq_true, if_false, h0.2, if_true]
    rw [ih (t + 1) (fun i hi1 hi2 => h i (by omega) (by omega))]

/-- C4 amended: the orchestration loop makes at most 10 model calls for any
sequence of responses; when every one of the first 10 responses carries tool
invocations AND each `database_query` invocation's arguments parse as a JSON
object, the loop returns the processing-limit outcome after exactly 10
calls.  (A `database_query` invocation whose arguments do not parse as a
JSON object instead raises an uncaught exception — see the
counterexample.) -/
theorem c4_turn_budget (oracle : Nat → ModelMsg) :
    llmCallCount oracle ≤ maxTurns ∧
    ((∀ t, t < maxTurns →
        (oracle t).toolCalls ≠ [] ∧ callsOk (oracle t).toolCalls = true) →
      processWithLLM oracle = .limit ∧ llmCallCount oracle = maxTurns) := by
  constructor
  · exact llmLoop_count_le oracle maxTurns 0
  · intro h
    have := llmLoop_limit oracle maxTurns 0 (fun i _ hi2 => h i (by omega))
    unfold processWithLLM llmCallCount
    rw [this]
    exact ⟨rfl, rfl⟩

/-- C4 counterexample.  The claim promises the processing-limit object (and
no crash) whenever every one of the first 10 responses contains tool
invocations.  An oracle whose every response carries a `database_query`
invocation with non-JSON arguments does contain tool invocations each turn,
yet the loop raises (`json.loads(tool_call.function.arguments)` at source
line 1139) instead of returning the limit object. -/
theorem c4_counterexample :
    (∀ t, (oracleBadArgs t).toolCalls ≠ []) ∧
    processWithLLM oracleBadArgs = .fault ∧
    processWithLLM oracleBadArgs ≠ .limit := by
  refine ⟨fun t => ?_, rfl, ?_⟩
  · intro hnil
    simp [oracleBadArgs] at hnil
  · intro hlim
    rw [show processWithLLM oracleBadArgs = LoopOutcome.fault from rfl] at hlim
    exact LoopOutcome.noConfusion hlim

/-! Claim C5. -/

/-- C5 counterexample.  The claim says a single query value that is all
digits with an optional sign becomes an integer.  Python's `isdigit`
rejects a leading sign, so `?n=-42` stays the string `"-42"`. -/
theorem c5_counterexample :
    parseQueryParams "n=-42" = [("n", JVal.str "-42")] ∧
    (∀ m : Int, JVal.str "-42" ≠ JVal.int m) :=
  ⟨rfl, fun _ h => JVal.noConfusion h⟩

/-- C5 amended: a single-valued key is coerced to an integer when the value
is all digits with NO sign; else to a float when removing the first `.`
leaves an all-digit string and the value has exactly one `.` (digits are
not required on both sides — `.5` and `5.` coerce); else it stays a string.
Multi-valued keys keep all values as a sequence of uncoerced strings.  The
four examples of the claim hold as stated. -/
theorem c5_query_coercion (qs : String) (k v : String) (vs : List String) :
    ((k, [v]) ∈ parseQs qs.data → (k, coerceScalar v) ∈ parseQueryParams qs) ∧
    (vs.length ≠ 1 → (k, vs) ∈ parseQs qs.data →
      (k, JVal.arr (vs.map JVal.str)) ∈ parseQueryParams qs) ∧
    (pyIsDigitStr v.data = true → coerceScalar v = JVal.int (decDigitsVal v.data)) ∧
    (pyIsDigitStr v.data = false →
      (pyIsDigitStr (removeFirstChar '.' v.data) && (countChar '.' v.data == 1)) = true →
      coerceScalar v = JVal.flt v) ∧
    (pyIsDigitStr v.data = false →
      (pyIsDigitStr (removeFirstChar '.' v.data) && (countChar '.' v.data == 1)) = false →
      coerceScalar v = JVal.str v) ∧
    parseQueryParams "n=42" = [("n", JVal.int 42)] ∧
    parseQueryParams "n=4.5" = [("n", JVal.flt "4.5")] ∧
    parseQueryParams "n=42abc" = [("n", JVal.str "42abc")] ∧
    parseQueryParams "n=1&n=2" = [("n", JVal.arr [JVal.str "1", JVal.str "2"])] := by
  refine ⟨?_, ?_, ?_, ?_, ?_, rfl, rfl, rfl, rfl⟩
  · intro hmem
    exact List.mem_map.mpr ⟨(k, [v]), hmem, rfl⟩
  · intro hlen hmem
    refine List.mem_map.mpr ⟨(k, vs), hmem, ?_⟩
    match vs with
    | [] => rfl
    | [v0] => exact absurd rfl hlen
    | v0 :: v1 :: rest => rfl
  · intro hd; simp [coerceScalar, hd]
  · intro hd hf; simp [coerceScalar, hd, hf]
  · intro hd hf; simp [coerceScalar, hd, hf]

/-! Claim C8. -/

/-- A successful segment match binds exactly the placeholder names, in
pattern order, to the corresponding request segments, verbatim; and the
segment counts agree. -/
theorem matchParts_spec (parts : List (List Char)) :
    ∀ (segs : List (List Char)) (ps : List (String × String)),
      matchParts parts segs = some ps →
      parts.length = segs.length ∧
      ps = (parts.zip segs).filterMap
        (fun pr => if isParamPart pr.1 then
          some (paramName pr.1, String.mk pr.2) else none) := by
  induction parts with
  | nil =>
    intro segs ps h
    cases segs with
    | nil =>
      rw [show matchParts ([] : List (List Char)) ([] : List (List Char)) = some []
        from rfl] at h
      injection h with h
      exact ⟨rfl, by rw [← h]; rfl⟩
    | cons s ss =>
      rw [show matchParts ([] : List (List Char)) (s :: ss) = none from rfl] at h
      exact absurd h (by simp)
  | cons part pts ih =>
    intro segs res h
    cases segs with
    | nil =>
      rw [show matchParts (part :: pts) ([] : List (List Char)) = none from rfl] at h
      exact absurd h (by simp)
    | cons seg ss =>
      simp only [matchParts] at h
      by_cases hp : isParamPart part = true
      · rw [if_pos hp] at h
        by_cases hse : seg.isEmpty
        · rw [if_pos hse] at h
          exact absurd h (by simp)
        · rw [if_neg hse] at h
          cases hm : matchParts pts ss with
          | none => rw [hm] at h; simp at h
          | some rest =>
            rw [hm] at h
            have h2 : some ((paramName part, String.mk seg) :: rest) = some res := h
            injection h2 with h2
            obtain ⟨hlen, hres⟩ := ih ss rest hm
            refine ⟨by simp [hlen], ?_⟩
            rw [← h2]
            simp [hp, hres]
      · rw [if_neg hp] at h
        by_cases heq : seg = part
        · rw [if_pos heq] at h
          obtain ⟨hlen, hres⟩ := ih ss res h
          refine ⟨by simp [hlen], ?_⟩
          simp only [List.zip_cons_cons, List.filterMap_cons]
          rw [if_neg hp]
          exact hres
        · rw [if_neg heq] at h
          exact absurd h (by simp)

/-- When route matching returns `none`, no endpoint of the registry has the
right method and a matching pattern. -/
theorem findRoute_none_iff (apis : List Api) (m p : String) :
    findRoute apis m p = none ↔
      ∀ a ∈ apis, ¬ (a.method = m ∧ (pathMatches a.path p).isSome) := by
  induction apis with
  | nil => simp [findRoute]
  | cons a rest ih =>
    simp only [findRoute]
    by_cases hm : a.method = m
    · rw [if_pos hm]
      cases hpm : pathMatches a.path p with
      | some ps => simp [hm, hpm]
      | none => simp [hm, hpm, ih]
    · rw [if_neg hm]
      simp [hm, ih]

/-- The first qualifying endpoint, in registry order, wins. -/
theorem findRoute_first (m p : String) (pre : List Api) :
    ∀ (a : Api) (post : List Api) (ps : List (String × String)),
      (∀ b ∈ pre, ¬ (b.method = m ∧ (pathMatches b.path p).isSome)) →
      a.method = m → pathMatches a.path p = some ps →
      findRoute (pre ++ a :: post) m p = some (a, ps) := by
  induction pre with
  | nil =>
    intro a post ps _ hm hpm
    simp [findRoute, hm, hpm]
  | cons b pre2 ih =>
    intro a post ps hpre hm hpm
    have hb : ¬ (b.method = m ∧ (pathMatches b.path p).isSome) :=
      hpre b (List.mem_cons_self b pre2)
    have htail : ∀ c ∈ pre2, ¬ (c.method = m ∧ (pathMatches c.path p).isSome) :=
      fun c hc => hpre c (List.mem_cons_of_mem b hc)
    simp only [List.cons_append, findRoute]
    by_cases hbm : b.method = m
    · rw [if_pos hbm]
      cases hbpm : pathMatches b.path p with
      | some ps2 => exact absurd ⟨hbm, by simp [hbpm]⟩ hb
      | none => exact ih a post ps htail hm hpm
    · rw [if_neg hbm]
      exact ih a post ps htail hm hpm

/-- A route-matching hit comes from a registered endpoint with the request's
method whose pattern matched. -/
theorem findRoute_some (apis : List Api) (m p : String) :
    ∀ a ps, findRoute apis m p = some (a, ps) →
      a ∈ apis ∧ a.method = m ∧ pathMatches a.path p = some ps := by
  induction apis with
  | nil => intro a ps h; simp [findRoute] at h
  | cons b rest ih =>
    intro a ps h
    simp only [findRoute] at h
    by_cases hbm : b.method = m
    · rw [if_pos hbm] at h
      cases hbpm : pathMatches b.path p with
      | some qs =>
        rw [hbpm] at h
        simp only [Option.some.injEq, Prod.mk.injEq] at h
        obtain ⟨hba, hqs⟩ := h
        subst hba
        subst hqs
        exact ⟨List.mem_cons_self _ _, hbm, hbpm⟩
      | none =>
        rw [hbpm] at h
        obtain ⟨hmem, h2, h3⟩ := ih a ps h
        exact ⟨List.mem_cons_of_mem b hmem, h2, h3⟩
    · rw [if_neg hbm] at h
      obtain ⟨hmem, h2, h3⟩ := ih a ps h
      exact ⟨List.mem_cons_of_mem b hmem, h2, h3⟩

/-- C8: route matching scans the registry in order and the first endpoint
whose method equals the request method and whose pattern matches wins; a hit
binds exactly the pattern's placeholder names to the corresponding path
segments, verbatim; and when nothing qualifies the result is the no-match
value, never an exception (the function is total by construction). -/
theorem c8_route_matching (apis : List Api) (m p : String) :
    (findRoute apis m p = none ↔
      ∀ a ∈ apis, ¬ (a.method = m ∧ (pathMatches a.path p).isSome)) ∧
    (∀ pre a post ps, apis = pre ++ a :: post →
      (∀ b ∈ pre, ¬ (b.method = m ∧ (pathMatches b.path p).isSome)) →
      a.method = m → pathMatches a.path p = some ps →
      findRoute apis m p = some (a, ps)) ∧
    (∀ a ps, findRoute apis m p = some (a, ps) →
      a ∈ apis ∧ a.method = m ∧
      ∃ rest, p.data = '/' :: rest ∧
        (patternParts a.path).length = (splitOnChar '/' rest).length ∧
        ps = ((patternParts a.path).zip (splitOnChar '/' rest)).filterMap
          (fun pr => if isParamPart pr.1 then
            some (paramName pr.1, String.mk pr.2) else none)) := by
  refine ⟨findRoute_none_iff apis m p, ?_, ?_⟩
  · intro pre a post ps happ hpre hm hpm
    rw [happ]
    exact findRoute_first m p pre a post ps hpre hm hpm
  · intro a ps h
    obtain ⟨hmem, hm, hpm⟩ := findRoute_some apis m p a ps h
    refine ⟨hmem, hm, ?_⟩
    unfold pathMatches at hpm
    cases hd : p.data with
    | nil => rw [hd] at hpm; exact absurd hpm (by simp)
    | cons c rest =>
      rw [hd] at hpm
      have hpm2 : (if c = '/' then
          matchParts (patternParts a.path) (splitOnChar '/' rest) else none) = some ps := hpm
      by_cases hc : c = '/'
      · rw [if_pos hc] at hpm2
        obtain ⟨hlen, hres⟩ := matchParts_spec (patternParts a.path) _ ps hpm2
        exact ⟨rest, by rw [hc], hlen, hres⟩
      · rw [if_neg hc] at hpm2
        exact absurd hpm2 (by simp)

/-! Claim C6. -/

/-- Dropping a predicate-false last element commutes with `dropWhile`. -/
theorem dropWhile_append_last (p : Char → Bool) (c : Char) (hc : p c = false)
    (l : List Char) : (l ++ [c]).dropWhile p = l.dropWhile p ++ [c] := by
  induction l with
  | nil => simp [List.dropWhile, hc]
  | cons a t ih =>
    by_cases ha : p a
    · simp [List.dropWhile_cons, ha, ih]
    · simp [List.dropWhile_cons, ha]

/-- Whether a stripped string starts with a given character is whether the
first non-whitespace character is that character (trailing stripping cannot
change a non-whitespace head). -/
theorem startsWith_single_pyStrip (c0 : Char) (cs : List Char) :
    startsWithChars [c0] (pyStrip cs) =
      startsWithChars [c0] (cs.dropWhile pyIsSpace) := by
  induction cs with
  | nil => rfl
  | cons c t ih =>
    by_cases hc : pyIsSpace c
    · have hdw : (c :: t).dropWhile pyIsSpace = t.dropWhile pyIsSpace := by
        simp [List.dropWhile_cons, hc]
      have hps : pyStrip (c :: t) = pyStrip t := by
        simp only [pyStrip, hdw]
      rw [hps, hdw]
      exact ih
    · have hc2 : pyIsSpace c = false := by simpa using hc
      have hdw : (c :: t).dropWhile pyIsSpace = c :: t := by
        simp [List.dropWhile_cons, hc2]
      rw [hdw]
      have hps : pyStrip (c :: t) = c :: (t.reverse.dropWhile pyIsSpace).reverse := by
        simp only [pyStrip, hdw, List.reverse_cons]
        rw [dropWhile_append_last pyIsSpace c hc2 t.reverse]
        simp
      rw [hps]
      simp [startsWithChars]

/-- The body-parsing decision order exactly as claim C6 words it (written
from the claim, for comparison with `parseBody`): the JSON branch requires a
declared content type containing `json`, or NO declared content type at all
together with a leading brace. -/
def parseBodyClaim (contentTypeHeader body : String) : BodyOutcome :=
  let ct := lowerStr contentTypeHeader
  if containsSubChars ct.data [ 'j', 's', 'o', 'n' ] ||
      (contentTypeHeader == "" &&
        startsWithChars [ '\x7b' ] (body.data.dropWhile pyIsSpace)) then
    match jsonLoads body with
    | some (.obj fs) => .ok fs
    | some _ => .fault
    | none => .invalidJSON
  else if containsSubChars ct.data ("x-www-form-urlencoded".data) then
    .ok (parseFormBody body)
  else if !(pyStrip body.data).isEmpty then
    match jsonLoads body with
    | some (.obj fs) => .ok fs
    | _ => .invalidFormat
  else .ok []

/-- The amended decision order: identical to the claim's except that the
brace test applies whether or not a content type was declared. -/
def parseBodyAmended (contentTypeHeader body : String) : BodyOutcome :=
  let ct := lowerStr contentTypeHeader
  if containsSubChars ct.data [ 'j', 's', 'o', 'n' ] ||
      startsWithChars [ '\x7b' ] (body.data.dropWhile pyIsSpace) then
    match jsonLoads body with
    | some (.obj fs) => .ok fs
    | some _ => .fault
    | none => .invalidJSON
  else if containsSubChars ct.data ("x-www-form-urlencoded".data) then
    .ok (parseFormBody body)
  else if !(pyStrip body.data).isEmpty then
    match jsonLoads body with
    | some (.obj fs) => .ok fs
    | _ => .invalidFormat
  else .ok []

/-- C6 counterexample.  The claim routes a body to the JSON branch only when
the content type contains `json` or NO type is declared.  With the declared
form content type and the body `\x7bx=1` (which starts with a brace but is
not JSON), the claim's decision order form-decodes it successfully, while
the code takes the JSON branch — the brace test ignores the declared
type — and fails with `InvalidJSON`. -/
theorem c6_counterexample :
    parseBody "application/x-www-form-urlencoded" "\x7bx=1" =
      BodyOutcome.invalidJSON ∧
    parseBodyClaim "application/x-www-form-urlencoded" "\x7bx=1" =
      BodyOutcome.ok [("\x7bx", JVal.str "1")] ∧
    BodyOutcome.invalidJSON ≠ BodyOutcome.ok [("\x7bx", JVal.str "1")] :=
  ⟨rfl, rfl, fun h => BodyOutcome.noConfusion h⟩

/-- C6 amended: body parsing follows the decision order with the JSON branch
taken when the declared content type contains `json` OR the body's first
non-whitespace character is a brace (even when a non-JSON type is declared);
else the form branch when the type indicates form encoding; else a
non-empty body is tried as JSON as a last resort, failing with the
invalid-body-format error; a JSON parse failure in the JSON branch fails
with the invalid-JSON error; and inside the request pipeline both failures
are answered with status 400, a client error. -/
theorem c6_body_decision (ct body : String) :
    parseBody ct body = parseBodyAmended ct body ∧
    (∀ (apis : List Api) (oracle : Nat → ModelMsg) (req : HttpReq)
        (r : Api × List (String × String)),
      (req.method == "POST" || req.method == "PUT") = true →
      (req.method == "GET" && routePath req.rawPath == "/docs") = false →
      findRoute apis req.method (routePath req.rawPath) = some r →
      parseBody req.contentType req.body = BodyOutcome.invalidJSON →
      processRequest apis oracle req = (400, invalidJsonObj)) ∧
    (∀ (apis : List Api) (oracle : Nat → ModelMsg) (req : HttpReq)
        (r : Api × List (String × String)),
      (req.method == "POST" || req.method == "PUT") = true →
      (req.method == "GET" && routePath req.rawPath == "/docs") = false →
      findRoute apis req.method (routePath req.rawPath) = some r →
      parseBody req.contentType req.body = BodyOutcome.invalidFormat →
      processRequest apis oracle req = (400, invalidFormatObj)) := by
  refine ⟨?_, ?_, ?_⟩
  · unfold parseBody parseBodyAmended
    rw [startsWith_single_pyStrip '\x7b' body.data]
  · intro apis oracle req r hm hdocs hroute hbody
    simp only [processRequest, hdocs, Bool.false_eq_true, if_false, hroute, hm, if_true,
      hbody]
  · intro apis oracle req r hm hdocs hroute hbody
    simp only [processRequest, hdocs, Bool.false_eq_true, if_false, hroute, hm, if_true,
      hbody]

/-! Claim C9. -/

/-- C9: the response finalizer is total and never fails the request: content
that parses directly as JSON is returned as parsed; otherwise, when the
fenced-block search succeeds and the extracted interior parses, that inner
value is returned; otherwise the raw text is wrapped in a success object.
The three round-trip examples of the claim hold concretely. -/
theorem c9_finalizer (content : String) :
    (∀ v, jsonLoads content = some v → finalizeContent content = v) ∧
    (jsonLoads content = none →
      ∀ inner v, searchFenced content.data = some inner →
        jsonLoads (String.mk inner) = some v → finalizeContent content = v) ∧
    (jsonLoads content = none →
      (∀ inner, searchFenced content.data = some inner →
        jsonLoads (String.mk inner) = none) →
      finalizeContent content =
        JVal.obj [("status", JVal.str "success"), ("result", JVal.str content)]) ∧
    finalizeContent "\x7b\"status\": \"ok\"\x7d" = JVal.obj [("status", JVal.str "ok")] ∧
    finalizeContent "```json\n\x7b\"a\": 1\x7d\n```" = JVal.obj [("a", JVal.int 1)] ∧
    finalizeContent "plain text" =
      JVal.obj [("status", JVal.str "success"), ("result", JVal.str "plain text")] := by
  refine ⟨?_, ?_, ?_, rfl, rfl, rfl⟩
  · intro v h
    simp [finalizeContent, h]
  · intro h inner v hs hp
    simp [finalizeContent, h, hs, hp]
  · intro h hall
    simp only [finalizeContent, h]
    cases hs : searchFenced content.data with
    | none => rfl
    | some inner => simp [hall inner hs]

/-! Claim C10. -/

/-- A request fixture: `GET /items/42`, no query string, no body. -/
def reqGet : HttpReq :=
  { method := "GET", rawPath := "/items/42", contentType := "", body := "" }

/-- C10 counterexample.  The claim says every request that passes route
matching and body parsing is answered 200 regardless of the orchestration
outcome.  `GET /items/42` matches the registered route and carries no body,
yet when the model's first response is a `database_query` tool call whose
arguments are not JSON, the loop raises and the outermost handler answers
500, not 200. -/
theorem c10_counterexample :
    findRoute [itemsApi] "GET" (routePath "/items/42") =
      some (itemsApi, [("id", "42")]) ∧
    processRequest [itemsApi] oracleBadArgs reqGet = (500, internalErrorObj) ∧
    (500 : Nat) ≠ 200 :=
  ⟨rfl, rfl, by decide⟩

/-- C10 amended: every request that passes route matching and body parsing
and whose orchestration loop completes without an uncaught exception (that
is, no `database_query` tool call carries arguments that fail to parse as a
JSON object) is answered with HTTP status 200, whatever the loop's outcome:
the processing-limit error object is sent with 200, and any final value the
model produces — including answers embedding gateway error dicts — is sent
with 200. -/
theorem c10_status_200 (apis : List Api) (oracle : Nat → ModelMsg)
    (req : HttpReq) (r : Api × List (String × String))
    (hdocs : (req.method == "GET" && routePath req.rawPath == "/docs") = false)
    (hroute : findRoute apis req.method (routePath req.rawPath) = some r)
    (hbody : (req.method == "POST" || req.method == "PUT") = true →
      ∃ fs, parseBody req.contentType req.body = BodyOutcome.ok fs)
    (hloop : processWithLLM oracle ≠ LoopOutcome.fault) :
    (processRequest apis oracle req).1 = 200 ∧
    (processWithLLM oracle = LoopOutcome.limit →
      processRequest apis oracle req = (200, processingLimitReachedObj)) ∧
    (∀ v, processWithLLM oracle = LoopOutcome.done v →
      processRequest apis oracle req = (200, coerceResponse v)) := by
  have hnc : ∀ v, LoopOutcome.limit = LoopOutcome.done v → False :=
    fun _ h => LoopOutcome.noConfusion h
  have hnc2 : ∀ v, LoopOutcome.done v = LoopOutcome.limit → False :=
    fun _ h => LoopOutcome.noConfusion h
  cases hm : (req.method == "POST" || req.method == "PUT") with
  | true =>
    obtain ⟨fs, hfs⟩ := hbody hm
    cases hl : processWithLLM oracle with
    | fault => exact absurd hl hloop
    | limit =>
      have hpr : processRequest apis oracle req =
          (200, coerceResponse processingLimitReachedObj) := by
        simp only [processRequest, hdocs, Bool.false_eq_true, if_false, hroute, hm,
          if_true, hfs, hl]
      rw [hpr]
      exact ⟨rfl, fun _ => rfl, fun v hv => absurd hv (hnc v)⟩
    | done v0 =>
      have hpr : processRequest apis oracle req = (200, coerceResponse v0) := by
        simp only [processRequest, hdocs, Bool.false_eq_true, if_false, hroute, hm,
          if_true, hfs, hl]
      rw [hpr]
      refine ⟨rfl, fun hlim => absurd hlim (hnc2 v0), fun v hv => ?_⟩
      injection hv with hd
      rw [hd]
  | false =>
    cases hl : processWithLLM oracle with
    | fault => exact absurd hl hloop
    | limit =>
      have hpr : processRequest apis oracle req =
          (200, coerceResponse processingLimitReachedObj) := by
        simp only [processRequest, hdocs, Bool.false_eq_true, if_false, hroute, hm,
          if_true, hl]
      rw [hpr]
      exact ⟨rfl, fun _ => rfl, fun v hv => absurd hv (hnc v)⟩
    | done v0 =>
      have hpr : processRequest apis oracle req = (200, coerceResponse v0) := by
        simp only [processRequest, hdocs, Bool.false_eq_true, if_false, hroute, hm,
          if_true, hl]
      rw [hpr]
      refine ⟨rfl, fun hlim => absurd hlim (hnc2 v0), fun v hv => ?_⟩
      injection hv with hd
      rw [hd]

/-- C10 witness: the amended theorem at the one-endpoint registry, the
immediately-final oracle, and `GET /items/42`. -/
theorem c10_status_200_witness :
    (processRequest [itemsApi] oracleFinal reqGet).1 = 200 ∧
    (processWithLLM oracleFinal = LoopOutcome.limit →
      processRequest [itemsApi] oracleFinal reqGet = (200, processingLimitReachedObj)) ∧
    (∀ v, processWithLLM oracleFinal = LoopOutcome.done v →
      processRequest [itemsApi] oracleFinal reqGet = (200, coerceResponse v)) :=
  c10_status_200 [itemsApi] oracleFinal reqGet (itemsApi, [("id", "42")]) rfl rfl
    (fun h => absurd h (by decide))
    (fun h => by
      rw [show processWithLLM oracleFinal =
        LoopOutcome.done (JVal.obj [("status", JVal.str "success")]) from rfl] at h
      exact LoopOutcome.noConfusion h)

/-! Claim C7. -/

/-- Left-biased choice between two optional values. -/
def firstSome (a b : Option JVal) : Option JVal :=
  match a with
  | some v => some v
  | none => b

/-- The value of the LAST occurrence of a key in a pair list — the value a
sequence of dict assignments leaves for that key. -/
def lastVal : List (String × JVal) → String → Option JVal
  | [], _ => none
  | kv :: rest, k =>
    match lastVal rest k with
    | some v => some v
    | none => if kv.1 = k then some kv.2 else none

/-- Looking up after one dict assignment. -/
theorem dictGet_dictSet (d : List (String × JVal)) (k : String) (v : JVal) (q : String) :
    dictGet (dictSet d k v) q = if q = k then some v else dictGet d q := by
  induction d with
  | nil =>
    by_cases h : q = k
    · simp [dictSet, dictGet, h]
    · have h2 : ¬ k = q := fun hh => h hh.symm
      simp [dictSet, dictGet, h, h2]
  | cons kv rest ih =>
    obtain ⟨k0, v0⟩ := kv
    by_cases h1 : k0 = k
    · by_cases h2 : q = k
      · simp [dictSet, dictGet, h1, h2]
      · have h3 : ¬ k = q := fun hh => h2 hh.symm
        simp [dictSet, dictGet, h1, h2, h3]
    · by_cases h2 : k0 = q
      · have h4 : ¬ q = k := fun hh => h1 (h2.trans hh)
        simp [dictSet, dictGet, h1, h2, h4]
      · simp [dictSet, dictGet, h1, h2, ih]

/-- Looking up after a dict update: the updating pairs win (their last
occurrence), else the original dict answers. -/
theorem dictGet_dictUpdate (new : List (String × JVal)) :
    ∀ (d : List (String × JVal)) (k : String),
      dictGet (dictUpdate d new) k = firstSome (lastVal new k) (dictGet d k) := by
  induction new with
  | nil => intro d k; simp [dictUpdate, lastVal, firstSome]
  | cons kv rest ih =>
    intro d k
    have hstep : dictUpdate d (kv :: rest) = dictUpdate (dictSet d kv.1 kv.2) rest := rfl
    rw [hstep, ih, dictGet_dictSet]
    cases hl : lastVal rest k with
    | some v =>
      have hcons : lastVal (kv :: rest) k = some v := by
        simp only [lastVal, hl]
      rw [hcons]
      simp [firstSome]
    | none =>
      have hcons : lastVal (kv :: rest) k = if kv.1 = k then some kv.2 else none := by
        simp only [lastVal, hl]
      rw [hcons]
      by_cases hk : kv.1 = k
      · rw [if_pos hk, if_pos hk.symm]
        simp [firstSome]
      · rw [if_neg hk, if_neg (fun hh => hk (Eq.symm hh))]

/-- C7: the merged input applies path parameters, then query parameters,
then body fields, later sources overwriting earlier ones: a lookup answers
with the body field when present, else the query parameter, else the path
parameter; and with path `id=1`, query `id=2`, body `id=3` the merged `id`
is `3`. -/
theorem c7_merge_precedence (pathParams : List (String × String))
    (queryParams bodyFields : List (String × JVal)) (k : String) :
    dictGet (mergedInput pathParams queryParams bodyFields) k =
      firstSome (lastVal bodyFields k)
        (firstSome (lastVal queryParams k)
          (lastVal (pathParams.map (fun kv => (kv.1, JVal.str kv.2))) k)) ∧
    dictGet (mergedInput [("id", "1")] [("id", JVal.int 2)] [("id", JVal.int 3)]) "id" =
      some (JVal.int 3) := by
  constructor
  · unfold mergedInput
    rw [dictGet_dictUpdate, dictGet_dictUpdate, dictGet_dictUpdate]
    have hnone :
        firstSome (lastVal (pathParams.map (fun kv => (kv.1, JVal.str kv.2))) k)
          (dictGet [] k) =
        lastVal (pathParams.map (fun kv => (kv.1, JVal.str kv.2))) k := by
      cases lastVal (pathParams.map (fun kv => (kv.1, JVal.str kv.2))) k <;>
        simp [firstSome, dictGet]
    rw [hnone]
  · rfl

end VibeApi
